import Mathlib

/-!
Verification of apstndb/gh-dev-tools: shallow embedding of the bounded
parallel task executor (ExecuteParallel / ExecuteParallelWithErrors) and of
the review/check wait loop of gh-helper/main.go (waitForReviewsOnly,
waitForReviewsAndChecks, hasNewReviews, loadReviewState, saveReviewState),
with theorems settling the spec's claims about them.
-/

/-- Go error values: `none` is the nil error, `some msg` a non-nil error. -/
abbrev GoErr := Option String

/-- The mutex-serialized sequence of `results[idx] = v` writes performed by
the worker goroutines: folding the writes over the freshly allocated slice,
each write sets one index. -/
def applyWrites {R : Type} (ws : List (Nat × R)) (init : List R) : List R :=
  ws.foldl (fun acc w => acc.set w.1 w.2) init

/-- The writes issued by the goroutines of `ExecuteParallel` (one goroutine
per index `i`, computing `fn items[i]` and storing the result component at
index `i`), listed in the order in which they win the mutex.  `order` is
that serialization order; a run of the Go code yields a permutation of
`0 .. len items - 1`. -/
def parallelWrites {T R : Type} (items : List T) (fn : T → R × GoErr)
    (order : List Nat) : List (Nat × R) :=
  order.filterMap fun i => (items[i]?).map fun item => (i, (fn item).1)

/-- `ExecuteParallel` from the executor source file.  The sequential branch
(`!parallel || maxConcurrent <= 1 || len(items) <= 1`) runs `fn` in order and
keeps only the result component, discarding the error (`result, _ := fn(item)`).
The parallel branch is the slice `make([]R, len(items))` of zero values
(`default`) after all goroutines' mutex-guarded writes, `order` being the
serialization order of those writes. -/
def ExecuteParallel {T R : Type} [Inhabited R] (items : List T)
    (fn : T → R × GoErr) (parallel : Bool) (maxConcurrent : Int)
    (order : List Nat) : List R :=
  if !parallel || decide (maxConcurrent ≤ 1) || decide (items.length ≤ 1) then
    items.map fun item => (fn item).1
  else
    applyWrites (parallelWrites items fn order) (List.replicate items.length default)

/-- `ParallelResult` from the executor source: a result wrapped with its
index and error.  The derived `default` is the Go zero value
`{Index: 0, Result: zero, Error: nil}`. -/
structure ParallelResult (R : Type) where
  Index : Nat
  Result : R
  Error : GoErr
  deriving DecidableEq, Inhabited

/-- The writes issued by the goroutines of `ExecuteParallelWithErrors`:
the goroutine for index `i` stores `{Index: i, Result: r, Error: err}`
where `(r, err) = fn items[i]`. -/
def parallelWritesE {T R : Type} (items : List T) (fn : T → R × GoErr)
    (order : List Nat) : List (Nat × ParallelResult R) :=
  order.filterMap fun i =>
    (items[i]?).map fun item => (i, ⟨i, (fn item).1, (fn item).2⟩)

/-- `ExecuteParallelWithErrors` from the executor source: like
`ExecuteParallel` but each entry records its index, result and error. -/
def ExecuteParallelWithErrors {T R : Type} [Inhabited R] (items : List T)
    (fn : T → R × GoErr) (parallel : Bool) (maxConcurrent : Int)
    (order : List Nat) : List (ParallelResult R) :=
  if !parallel || decide (maxConcurrent ≤ 1) || decide (items.length ≤ 1) then
    items.enum.map fun p => ⟨p.1, (fn p.2).1, (fn p.2).2⟩
  else
    applyWrites (parallelWritesE items fn order) (List.replicate items.length default)

theorem applyWrites_cons {R : Type} (w : Nat × R) (ws : List (Nat × R))
    (init : List R) :
    applyWrites (w :: ws) init = applyWrites ws (init.set w.1 w.2) := rfl

theorem applyWrites_length {R : Type} (ws : List (Nat × R)) (init : List R) :
    (applyWrites ws init).length = init.length := by
  induction ws generalizing init with
  | nil => rfl
  | cons w ws ih =>
    rw [applyWrites_cons, ih, List.length_set]

theorem applyWrites_getElem?_not_mem {R : Type} (ws : List (Nat × R))
    (init : List R) (i : Nat) (h : i ∉ ws.map Prod.fst) :
    (applyWrites ws init)[i]? = init[i]? := by
  induction ws generalizing init with
  | nil => rfl
  | cons w ws ih =>
    simp only [List.map_cons, List.mem_cons, not_or] at h
    rw [applyWrites_cons, ih _ h.2, List.getElem?_set_ne (Ne.symm h.1)]

theorem applyWrites_getElem?_of_mem {R : Type} (ws : List (Nat × R))
    (init : List R) (i : Nat) (v : R) (hnd : (ws.map Prod.fst).Nodup)
    (hmem : (i, v) ∈ ws) (hlen : i < init.length) :
    (applyWrites ws init)[i]? = some v := by
  induction ws generalizing init with
  | nil => cases hmem
  | cons w ws ih =>
    simp only [List.map_cons, List.nodup_cons] at hnd
    rcases List.mem_cons.mp hmem with heq | hmem'
    · have hw1 : w.1 = i := by rw [← heq]
      have hw2 : w.2 = v := by rw [← heq]
      rw [applyWrites_cons, hw1, hw2,
        applyWrites_getElem?_not_mem ws _ i (hw1 ▸ hnd.1)]
      exact List.getElem?_set_self hlen
    · rw [applyWrites_cons]
      exact ih _ hnd.2 hmem' (by simpa using hlen)

theorem parallelWrites_map_fst {T R : Type} (items : List T)
    (fn : T → R × GoErr) (order : List Nat)
    (hlt : ∀ j ∈ order, j < items.length) :
    (parallelWrites items fn order).map Prod.fst = order := by
  induction order with
  | nil => rfl
  | cons j rest ih =>
    have hj : j < items.length := hlt j (List.mem_cons_self j rest)
    simp only [parallelWrites, List.filterMap_cons,
      List.getElem?_eq_getElem hj, Option.map_some]
    simpa [parallelWrites] using
      ih (fun x hx => hlt x (List.mem_cons_of_mem j hx))

theorem parallelWrites_mem {T R : Type} (items : List T) (fn : T → R × GoErr)
    (order : List Nat) (i : Nat) (hmem : i ∈ order) (h : i < items.length) :
    (i, (fn items[i]).1) ∈ parallelWrites items fn order := by
  induction order with
  | nil => cases hmem
  | cons j rest ih =>
    rcases List.mem_cons.mp hmem with heq | hmem'
    · subst heq
      simp [parallelWrites, List.filterMap_cons, List.getElem?_eq_getElem h]
    · rcases hj : items[j]? with _ | it
      · simpa [parallelWrites, List.filterMap_cons, hj] using ih hmem'
      · simp only [parallelWrites, List.filterMap_cons, hj, Option.map_some]
        exact List.mem_cons_of_mem _ (ih hmem')

theorem parallelWritesE_map_fst {T R : Type} (items : List T)
    (fn : T → R × GoErr) (order : List Nat)
    (hlt : ∀ j ∈ order, j < items.length) :
    (parallelWritesE items fn order).map Prod.fst = order := by
  induction order with
  | nil => rfl
  | cons j rest ih =>
    have hj : j < items.length := hlt j (List.mem_cons_self j rest)
    simp only [parallelWritesE, List.filterMap_cons,
      List.getElem?_eq_getElem hj, Option.map_some]
    simpa [parallelWritesE] using
      ih (fun x hx => hlt x (List.mem_cons_of_mem j hx))

theorem parallelWritesE_mem {T R : Type} (items : List T) (fn : T → R × GoErr)
    (order : List Nat) (i : Nat) (hmem : i ∈ order) (h : i < items.length) :
    (i, (⟨i, (fn items[i]).1, (fn items[i]).2⟩ : ParallelResult R))
      ∈ parallelWritesE items fn order := by
  induction order with
  | nil => cases hmem
  | cons j rest ih =>
    rcases List.mem_cons.mp hmem with heq | hmem'
    · subst heq
      simp [parallelWritesE, List.filterMap_cons, List.getElem?_eq_getElem h]
    · rcases hj : items[j]? with _ | it
      · simpa [parallelWritesE, List.filterMap_cons, hj] using ih hmem'
      · simp only [parallelWritesE, List.filterMap_cons, hj, Option.map_some]
        exact List.mem_cons_of_mem _ (ih hmem')

theorem executeParallel_getElem? {T R : Type} [Inhabited R] (items : List T)
    (fn : T → R × GoErr) (parallel : Bool) (maxConcurrent : Int)
    (order : List Nat) (hperm : order.Perm (List.range items.length))
    (i : Nat) (h : i < items.length) :
    (ExecuteParallel items fn parallel maxConcurrent order)[i]?
      = some ((fn items[i]).1) := by
  have hlt : ∀ j ∈ order, j < items.length := fun j hj =>
    List.mem_range.mp (hperm.mem_iff.mp hj)
  have hmemi : i ∈ order := hperm.mem_iff.mpr (List.mem_range.mpr h)
  have hnd : order.Nodup := hperm.nodup_iff.mpr (List.nodup_range _)
  unfold ExecuteParallel
  split
  · simp [List.getElem?_eq_getElem h]
  · exact applyWrites_getElem?_of_mem _ _ i _
      (by rw [parallelWrites_map_fst items fn order hlt]; exact hnd)
      (parallelWrites_mem items fn order i hmemi h) (by simpa using h)

theorem executeParallel_length {T R : Type} [Inhabited R] (items : List T)
    (fn : T → R × GoErr) (parallel : Bool) (maxConcurrent : Int)
    (order : List Nat) :
    (ExecuteParallel items fn parallel maxConcurrent order).length
      = items.length := by
  unfold ExecuteParallel
  split
  · simp
  · rw [applyWrites_length]; simp

theorem executeParallelWithErrors_getElem? {T R : Type} [Inhabited R]
    (items : List T) (fn : T → R × GoErr) (parallel : Bool)
    (maxConcurrent : Int) (order : List Nat)
    (hperm : order.Perm (List.range items.length)) (i : Nat)
    (h : i < items.length) :
    (ExecuteParallelWithErrors items fn parallel maxConcurrent order)[i]?
      = some ⟨i, (fn items[i]).1, (fn items[i]).2⟩ := by
  have hlt : ∀ j ∈ order, j < items.length := fun j hj =>
    List.mem_range.mp (hperm.mem_iff.mp hj)
  have hmemi : i ∈ order := hperm.mem_iff.mpr (List.mem_range.mpr h)
  have hnd : order.Nodup := hperm.nodup_iff.mpr (List.nodup_range _)
  unfold ExecuteParallelWithErrors
  split
  · simp [List.enum, List.getElem?_enumFrom, List.getElem?_eq_getElem h]
  · exact applyWrites_getElem?_of_mem _ _ i _
      (by rw [parallelWritesE_map_fst items fn order hlt]; exact hnd)
      (parallelWritesE_mem items fn order i hmemi h) (by simpa using h)

theorem executeParallelWithErrors_length {T R : Type} [Inhabited R]
    (items : List T) (fn : T → R × GoErr) (parallel : Bool)
    (maxConcurrent : Int) (order : List Nat) :
    (ExecuteParallelWithErrors items fn parallel maxConcurrent order).length
      = items.length := by
  unfold ExecuteParallelWithErrors
  split
  · simp
  · rw [applyWrites_length]; simp

/-- One review node as read by the wait-loop logic: the GraphQL node id and
the createdAt timestamp (an ISO-8601 string, compared as a string as in Go).
Modelled from the spec: the repository's ReviewFields struct lives outside
the provided sources (only its uses appear); the spec gives each review as
author/state/timestamp plus id, of which the wait logic reads only id and
createdAt, so the display-only fields are omitted here. -/
structure ReviewFields where
  ID : String
  CreatedAt : String
  deriving DecidableEq, Inhabited

/-- main.go ReviewState: the persisted last-known-review marker. -/
structure ReviewState where
  ID : String
  CreatedAt : String
  deriving DecidableEq, Inhabited

/-- main.go hasNewReviews: a review is new when its createdAt is strictly
greater than the marker's, or equal with a different id; with no marker
(nil), any review counts. -/
def hasNewReviews (reviews : List ReviewFields)
    (lastState : Option ReviewState) : Bool :=
  match lastState with
  | none => decide (reviews.length > 0)
  | some last =>
    reviews.any fun review =>
      decide (last.CreatedAt < review.CreatedAt)
        || (review.CreatedAt == last.CreatedAt && review.ID != last.ID)

/-- The per-PR marker file (reviews/pr-N-last-review.json) for the one PR a
wait invocation works on: `none` means the file is absent.  The yaml/json
serialization of the two-field record is an external library collaborator
(the spec: only the two fields and their round-trip fidelity matter), so the
file content is modelled as the record itself. -/
abbrev MarkerStore := Option ReviewState

/-- main.go loadReviewState: read the marker file, `none` when it cannot be
read (Go returns a nil pointer plus error, and every caller treats the error
by using a nil marker). -/
def loadReviewState (store : MarkerStore) : Option ReviewState := store

/-- main.go saveReviewState: write the marker file. -/
def saveReviewState (state : ReviewState) (_store : MarkerStore) : MarkerStore :=
  some state

/-- One poll's fetched PR data, as consumed by the wait loops: the reviews
(response.GetReviews()), the pair returned by response.GetMergeStatus()
(the fields mergeable and mergeStateStatus), and the CI status rollup state
(response.GetStatusCheckRollup(), `none` when the rollup is absent).  The
accessor methods live outside the provided sources; modelled from the spec
as plain projections of a snapshot record. -/
structure Snapshot where
  reviews : List ReviewFields
  mergeable : String
  mergeStatus : String
  rollup : Option String
  deriving DecidableEq, Inhabited

/-- The result of one client.FetchPRData call inside the wait loop: `err`
models a non-nil fetch error (the loop prints it, sleeps and retries),
`ok` a decoded snapshot. -/
inductive FetchResult where
  | err : FetchResult
  | ok : Snapshot → FetchResult
  deriving DecidableEq, Inhabited

/-- main.go waitForReviewsAndChecks, reviewsReady update: reviewsReady is
reassigned only while still false and only when the snapshot has reviews,
by re-reading the marker file and calling hasNewReviews. -/
def nextReviewsReady (store : MarkerStore) (s : Snapshot)
    (reviewsReady : Bool) : Bool :=
  if decide (s.reviews.length > 0) && !reviewsReady then
    hasNewReviews s.reviews (loadReviewState store)
  else reviewsReady

/-- main.go waitForReviewsAndChecks, checksComplete assignment: with a
rollup present, complete iff its state is SUCCESS, FAILURE or ERROR; with
the rollup absent, complete iff mergeable is CONFLICTING or mergeStateStatus
is CLEAN or HAS_HOOKS, and not complete for any other state. -/
def computeChecksComplete (s : Snapshot) : Bool :=
  match s.rollup with
  | some rollupState =>
    rollupState == "SUCCESS" || rollupState == "FAILURE"
      || rollupState == "ERROR"
  | none =>
    if s.mergeable == "CONFLICTING" then
      true
    else if s.mergeStatus == "CLEAN" || s.mergeStatus == "HAS_HOOKS" then
      true
    else
      false

/-- The three ways one snapshot evaluation of the waitForReviewsAndChecks
loop body can end: return on merge conflict, return satisfied, or continue
polling with updated flags. -/
inductive IterOut where
  | conflict : IterOut
  | satisfiedNow : List ReviewFields → IterOut
  | next : Bool → Bool → IterOut
  deriving DecidableEq

/-- One evaluation of the waitForReviewsAndChecks loop body on a fetched
snapshot: update reviewsReady, return on a CONFLICTING mergeable state
before the checksComplete evaluation, recompute checksComplete, and return
satisfied when both flags hold.  (Go computes the reviewsReady update just
before the conflict check; on the conflict return the updated local is
discarded, so the order is observationally the same.) -/
def waitIter (store : MarkerStore) (s : Snapshot)
    (reviewsReady _checksComplete : Bool) : IterOut :=
  if s.mergeable == "CONFLICTING" then
    .conflict
  else if nextReviewsReady store s reviewsReady && computeChecksComplete s then
    .satisfiedNow s.reviews
  else
    .next (nextReviewsReady store s reviewsReady) (computeChecksComplete s)

/-- The terminal outcomes of one waitForReviewsAndChecks invocation, with
the data each return point has at hand: the timeout return keeps the two
flags (they are printed), the satisfied return keeps the snapshot's reviews
(they are printed), and the conflict return carries nothing. -/
inductive RCOutcome where
  | timedOut : Bool → Bool → RCOutcome
  | mergeConflict : RCOutcome
  | satisfied : List ReviewFields → RCOutcome
  deriving DecidableEq

/-- The Go return value (of type error) of waitForReviewsAndChecks at each
terminal outcome: both timeout returns and the satisfied return are nil;
only the merge-conflict return is a non-nil error. -/
def goReturn : RCOutcome → GoErr
  | .timedOut _ _ => none
  | .satisfied _ => none
  | .mergeConflict => some "merge conflicts prevent CI execution"

/-- The waitForReviewsAndChecks polling loop, with wall-clock time
discretized to poll iterations: every iteration (including a failed fetch,
which also sleeps one interval) consumes one fuel unit, and exhausted fuel
is the top-of-loop timeout return.  `script t` is what the fetch of
iteration `t` yields; the loop never writes the marker store, so the store
is returned unchanged from every exit. -/
def waitRCAux (script : Nat → FetchResult) (store : MarkerStore) :
    Nat → Nat → Bool → Bool → RCOutcome × MarkerStore
  | 0, _, rR, cC => (.timedOut rR cC, store)
  | fuel + 1, t, rR, cC =>
    match script t with
    | .err => waitRCAux script store fuel (t + 1) rR cC
    | .ok s =>
      match waitIter store s rR cC with
      | .conflict => (.mergeConflict, store)
      | .satisfiedNow rs => (.satisfied rs, store)
      | .next rR' cC' => waitRCAux script store fuel (t + 1) rR' cC'

/-- main.go waitForReviewsAndChecks: start with both flags false and poll
until a terminal outcome; the timeout check (elapsed > timeout) fires at
the top of iteration timeout + 1. -/
def waitForReviewsAndChecks (timeout : Nat) (script : Nat → FetchResult)
    (store : MarkerStore) : RCOutcome × MarkerStore :=
  waitRCAux script store (timeout + 1) 0 false false

/-- The successive values of the pair (reviewsReady, checksComplete) at the
end of each snapshot evaluation of one waitForReviewsAndChecks run (same
recursion as waitRCAux; on the conflict return checksComplete has not been
reassigned, on the satisfied return both flags are the just-computed ones). -/
def waitRCTrace (script : Nat → FetchResult) (store : MarkerStore) :
    Nat → Nat → Bool → Bool → List (Bool × Bool)
  | 0, _, _, _ => []
  | fuel + 1, t, rR, cC =>
    match script t with
    | .err => waitRCTrace script store fuel (t + 1) rR cC
    | .ok s =>
      if s.mergeable == "CONFLICTING" then
        [(nextReviewsReady store s rR, cC)]
      else if nextReviewsReady store s rR && computeChecksComplete s then
        [(nextReviewsReady store s rR, computeChecksComplete s)]
      else
        (nextReviewsReady store s rR, computeChecksComplete s)
          :: waitRCTrace script store fuel (t + 1)
              (nextReviewsReady store s rR) (computeChecksComplete s)

/-- The terminal outcomes of one waitForReviewsOnly invocation. -/
inductive ROOutcome where
  | timedOut : ROOutcome
  | satisfied : List ReviewFields → ROOutcome
  deriving DecidableEq

/-- The waitForReviewsOnly polling loop: `lastState` is the marker loaded
once before the loop; on new reviews the marker file is rewritten with the
latest (last-listed) review's id and createdAt and the loop returns. -/
def waitROAux (script : Nat → FetchResult) (lastState : Option ReviewState)
    (store : MarkerStore) : Nat → Nat → ROOutcome × MarkerStore
  | 0, _ => (.timedOut, store)
  | fuel + 1, t =>
    match script t with
    | .err => waitROAux script lastState store fuel (t + 1)
    | .ok s =>
      if hasNewReviews s.reviews lastState then
        match s.reviews.getLast? with
        | some latest =>
          (.satisfied s.reviews, saveReviewState ⟨latest.ID, latest.CreatedAt⟩ store)
        | none => (.satisfied s.reviews, store)
      else waitROAux script lastState store fuel (t + 1)

/-- main.go waitForReviewsOnly: load the marker at wait-start, then poll. -/
def waitForReviewsOnly (timeout : Nat) (script : Nat → FetchResult)
    (store : MarkerStore) : ROOutcome × MarkerStore :=
  waitROAux script (loadReviewState store) store (timeout + 1) 0

/-- Phase of one worker goroutine of the parallel branch of ExecuteParallel
and ExecuteParallelWithErrors: `waiting` is blocked on the semaphore send,
`active` holds a semaphore slot and runs fn, `done` has released its slot. -/
inductive TaskPhase where
  | waiting : TaskPhase
  | active : TaskPhase
  | done : TaskPhase
  deriving DecidableEq

/-- State of a run of the parallel branch over n items: the phase of each of
the n goroutines. -/
structure SemState (n : Nat) where
  phase : Fin n → TaskPhase

/-- Number of goroutines currently executing fn, i.e. holding a semaphore
slot. -/
def activeCount {n : Nat} (s : SemState n) : Nat :=
  (Finset.univ.filter fun g => s.phase g = TaskPhase.active).card

/-- Initial state: every goroutine is blocked on the semaphore send. -/
def semInit (n : Nat) : SemState n := ⟨fun _ => TaskPhase.waiting⟩

/-- Interleaving semantics of the semaphore of capacity k (the buffered
channel `make(chan struct..., maxConcurrent)`): a send succeeds only while
fewer than k slots are held, and completing fn releases the slot.  A
goroutine runs fn exactly while it is active. -/
inductive SemStep (n k : Nat) : SemState n → SemState n → Prop
  | acquire (s : SemState n) (g : Fin n) (hw : s.phase g = TaskPhase.waiting)
      (hc : activeCount s < k) :
      SemStep n k s ⟨Function.update s.phase g TaskPhase.active⟩
  | release (s : SemState n) (g : Fin n) (ha : s.phase g = TaskPhase.active) :
      SemStep n k s ⟨Function.update s.phase g TaskPhase.done⟩

/-- States a run of the parallel branch can reach, under any scheduling. -/
inductive SemReachable (n k : Nat) : SemState n → Prop
  | init : SemReachable n k (semInit n)
  | step {s s' : SemState n} : SemReachable n k s → SemStep n k s s' →
      SemReachable n k s'

theorem activeCount_acquire {n : Nat} (s : SemState n) (g : Fin n)
    (hw : s.phase g = TaskPhase.waiting) :
    activeCount ⟨Function.update s.phase g TaskPhase.active⟩
      = activeCount s + 1 := by
  classical
  unfold activeCount
  have hins :
      (Finset.univ.filter fun x =>
          Function.update s.phase g TaskPhase.active x = TaskPhase.active)
        = insert g (Finset.univ.filter fun x => s.phase x = TaskPhase.active) := by
    ext x
    by_cases hx : x = g
    · subst hx
      simp [Function.update_same]
    · simp [Function.update_noteq hx, hx]
  rw [hins, Finset.card_insert_of_not_mem]
  simp [hw]

theorem activeCount_release {n : Nat} (s : SemState n) (g : Fin n) :
    activeCount ⟨Function.update s.phase g TaskPhase.done⟩ ≤ activeCount s := by
  classical
  unfold activeCount
  apply Finset.card_le_card
  intro x hx
  simp only [Finset.mem_filter, Finset.mem_univ, true_and] at hx ⊢
  by_cases hxg : x = g
  · subst hxg
    rw [Function.update_same] at hx
    cases hx
  · rwa [Function.update_noteq hxg] at hx

/-- Claim C1: for every input list, operation, and setting of parallel and
maxConcurrent, and every serialization order of the concurrent writes,
ExecuteParallel returns exactly len(items) results with the i-th entry the
result component of fn(items[i]), and ExecuteParallelWithErrors returns one
entry per input whose Index is i and whose Result and Error come from
fn(items[i]). -/
theorem executeParallel_index_correspondence {T R : Type} [Inhabited R]
    (items : List T) (fn : T → R × GoErr) (parallel : Bool)
    (maxConcurrent : Int) (order : List Nat)
    (hperm : order.Perm (List.range items.length)) :
    (ExecuteParallel items fn parallel maxConcurrent order).length
        = items.length ∧
    (ExecuteParallelWithErrors items fn parallel maxConcurrent order).length
        = items.length ∧
    ∀ i, (h : i < items.length) →
      (ExecuteParallel items fn parallel maxConcurrent order)[i]?
          = some ((fn items[i]).1) ∧
      (ExecuteParallelWithErrors items fn parallel maxConcurrent order)[i]?
          = some ⟨i, (fn items[i]).1, (fn items[i]).2⟩ := by
  refine ⟨executeParallel_length items fn parallel maxConcurrent order,
    executeParallelWithErrors_length items fn parallel maxConcurrent order,
    fun i h => ⟨?_, ?_⟩⟩
  · exact executeParallel_getElem? items fn parallel maxConcurrent order hperm i h
  · exact executeParallelWithErrors_getElem? items fn parallel maxConcurrent
      order hperm i h

/-- Witness for C1 at a concrete input: two items run in parallel mode with
the writes serialized in reversed order. -/
theorem executeParallel_index_correspondence_witness :
    ([1, 0] : List Nat).Perm (List.range ([10, 20] : List Nat).length) ∧
    ((ExecuteParallel [10, 20] (fun x => (x * 2, (none : GoErr))) true 2
        [1, 0]).length = ([10, 20] : List Nat).length ∧
     (ExecuteParallelWithErrors [10, 20] (fun x => (x * 2, (none : GoErr)))
        true 2 [1, 0]).length = ([10, 20] : List Nat).length ∧
     ∀ i, (h : i < ([10, 20] : List Nat).length) →
       (ExecuteParallel [10, 20] (fun x => (x * 2, (none : GoErr))) true 2
           [1, 0])[i]?
           = some (((fun x => (x * 2, (none : GoErr))) ([10, 20][i])).1) ∧
       (ExecuteParallelWithErrors [10, 20]
           (fun x => (x * 2, (none : GoErr))) true 2 [1, 0])[i]?
           = some ⟨i, ((fun x => (x * 2, (none : GoErr))) ([10, 20][i])).1,
               ((fun x => (x * 2, (none : GoErr))) ([10, 20][i])).2⟩) :=
  ⟨by decide,
   executeParallel_index_correspondence [10, 20]
     (fun x => (x * 2, (none : GoErr))) true 2 [1, 0] (by decide)⟩

/-- Claim C7: in ExecuteParallelWithErrors over n >= 2 items where the
operation fails only for item j, every other index i still carries its
correct result with a nil error, the full result list is returned, and the
entry at j carries exactly the error fn produced there. -/
theorem executeParallelWithErrors_failure_isolation {T R : Type} [Inhabited R]
    (items : List T) (fn : T → R × GoErr) (parallel : Bool)
    (maxConcurrent : Int) (order : List Nat) (j : Nat)
    (hperm : order.Perm (List.range items.length))
    (_hn : 2 ≤ items.length) (hj : j < items.length)
    (herr : ∀ i, (h : i < items.length) → i ≠ j → (fn items[i]).2 = none) :
    (ExecuteParallelWithErrors items fn parallel maxConcurrent order).length
        = items.length ∧
    (∀ i, (h : i < items.length) → i ≠ j →
      (ExecuteParallelWithErrors items fn parallel maxConcurrent order)[i]?
        = some ⟨i, (fn items[i]).1, none⟩) ∧
    (ExecuteParallelWithErrors items fn parallel maxConcurrent order)[j]?
        = some ⟨j, (fn items[j]).1, (fn items[j]).2⟩ := by
  refine ⟨executeParallelWithErrors_length items fn parallel maxConcurrent order,
    fun i h hne => ?_,
    executeParallelWithErrors_getElem? items fn parallel maxConcurrent order
      hperm j hj⟩
  rw [executeParallelWithErrors_getElem? items fn parallel maxConcurrent order
    hperm i h, herr i h hne]

/-- Witness for C7 at a concrete input: two items, the operation fails only
on the first (index 0). -/
theorem executeParallelWithErrors_failure_isolation_witness :
    ([0, 1] : List Nat).Perm (List.range ([5, 6] : List Nat).length) ∧
    2 ≤ ([5, 6] : List Nat).length ∧ 0 < ([5, 6] : List Nat).length ∧
    (∀ i, (h : i < ([5, 6] : List Nat).length) → i ≠ 0 →
      ((fun x => (x + 1, if x == 5 then some "boom" else none)) ([5, 6][i])).2
        = none) ∧
    ((ExecuteParallelWithErrors [5, 6]
        (fun x => (x + 1, if x == 5 then some "boom" else none)) true 3
        [0, 1]).length = ([5, 6] : List Nat).length ∧
     (∀ i, (h : i < ([5, 6] : List Nat).length) → i ≠ 0 →
       (ExecuteParallelWithErrors [5, 6]
           (fun x => (x + 1, if x == 5 then some "boom" else none)) true 3
           [0, 1])[i]?
         = some ⟨i, ((fun x => (x + 1, if x == 5 then some "boom" else none))
               ([5, 6][i])).1, none⟩) ∧
     (ExecuteParallelWithErrors [5, 6]
         (fun x => (x + 1, if x == 5 then some "boom" else none)) true 3
         [0, 1])[0]?
       = some ⟨0, ((fun x => (x + 1, if x == 5 then some "boom" else none))
             ([5, 6][0])).1,
           ((fun x => (x + 1, if x == 5 then some "boom" else none))
             ([5, 6][0])).2⟩) :=
  ⟨by decide, by decide, by decide, by decide,
   executeParallelWithErrors_failure_isolation [5, 6]
     (fun x => (x + 1, if x == 5 then some "boom" else none)) true 3 [0, 1] 0
     (by decide) (by decide) (by decide) (by decide)⟩

/-- Claim C9 counterexample: in ExecuteParallel, when the operation returns
an error the stored value is whatever result component fn returned alongside
the error (here 7 and 8), not the zero value of the result type (0): the
assignment result, _ := fn(item) discards the error and keeps the result. -/
theorem executeParallel_error_value_counterexample :
    ExecuteParallel [7, 8] (fun x : Nat => (x, some "boom")) true 2 [0, 1]
        = [7, 8] ∧
    ([7, 8] : List Nat) ≠ [default, default] := by
  exact ⟨by decide, by decide⟩

/-- Claim C9 amended: for every item whose operation invocation returns an
error, the value stored at that item's index is the result component fn
returned alongside the error (the error itself is discarded); it is the zero
value only when fn itself returned the zero value. -/
theorem executeParallel_error_items_keep_result {T R : Type} [Inhabited R]
    (items : List T) (fn : T → R × GoErr) (parallel : Bool)
    (maxConcurrent : Int) (order : List Nat)
    (hperm : order.Perm (List.range items.length)) (i : Nat)
    (h : i < items.length) (_herr : (fn items[i]).2 ≠ none) :
    (ExecuteParallel items fn parallel maxConcurrent order)[i]?
      = some ((fn items[i]).1) :=
  executeParallel_getElem? items fn parallel maxConcurrent order hperm i h

/-- Witness for the amended C9 at a concrete input: the single erroring item
at index 0 keeps the returned 7. -/
theorem executeParallel_error_items_keep_result_witness :
    ([1, 0] : List Nat).Perm (List.range ([7, 8] : List Nat).length) ∧
    0 < ([7, 8] : List Nat).length ∧
    ((fun x : Nat => (x, some "boom")) ([7, 8][0])).2 ≠ none ∧
    (ExecuteParallel [7, 8] (fun x : Nat => (x, some "boom")) true 2
        [1, 0])[0]?
      = some (((fun x : Nat => (x, some "boom")) ([7, 8][0])).1) :=
  ⟨by decide, by decide, by decide,
   executeParallel_error_items_keep_result [7, 8]
     (fun x : Nat => (x, some "boom")) true 2 [1, 0] (by decide) 0
     (by decide) (by decide)⟩

/-- Claim C2: in parallel mode with maxConcurrent = k (the claim's setting
k >= 2 with more than k items), every state reachable under any scheduling
of the goroutines has at most k of them executing the operation at once:
the buffered-channel semaphore admits a send only while fewer than k slots
are held. -/
theorem semaphore_concurrency_bound (n k : Nat) (s : SemState n)
    (_hk : 2 ≤ k) (_hn : k < n) (hreach : SemReachable n k s) :
    activeCount s ≤ k := by
  induction hreach with
  | init =>
    simp [activeCount, semInit]
  | step hprev hstep ih =>
    cases hstep with
    | acquire g hw hc =>
      rw [activeCount_acquire _ g hw]
      omega
    | release g ha =>
      exact le_trans (activeCount_release _ g) ih

/-- Witness for C2 at a concrete input: three goroutines, capacity two, and
the reachable state where the first two goroutines hold slots and the third
is still blocked; its active count is exactly the bound two. -/
theorem semaphore_concurrency_bound_witness :
    2 ≤ 2 ∧ 2 < 3 ∧
    SemReachable 3 2
      ⟨Function.update
        (Function.update (semInit 3).phase 0 TaskPhase.active) 1
        TaskPhase.active⟩ ∧
    activeCount (n := 3)
      ⟨Function.update
        (Function.update (semInit 3).phase 0 TaskPhase.active) 1
        TaskPhase.active⟩ ≤ 2 := by
  have h1 : SemReachable 3 2 ⟨Function.update (semInit 3).phase 0 TaskPhase.active⟩ :=
    SemReachable.step SemReachable.init
      (SemStep.acquire (semInit 3) 0 rfl (by decide))
  have h2 : SemReachable 3 2
      ⟨Function.update
        (Function.update (semInit 3).phase 0 TaskPhase.active) 1
        TaskPhase.active⟩ :=
    SemReachable.step h1
      (SemStep.acquire ⟨Function.update (semInit 3).phase 0 TaskPhase.active⟩ 1
        (by decide) (by decide))
  exact ⟨by decide, by decide, h2,
    semaphore_concurrency_bound 3 2 _ (by decide) (by decide) h2⟩

theorem nextReviewsReady_true (store : MarkerStore) (s : Snapshot) :
    nextReviewsReady store s true = true := by
  simp [nextReviewsReady]

theorem waitRCTrace_fst_of_true (script : Nat → FetchResult)
    (store : MarkerStore) :
    ∀ fuel t cC p, p ∈ waitRCTrace script store fuel t true cC →
      p.1 = true := by
  intro fuel
  induction fuel with
  | zero =>
    intro t cC p hp
    simp [waitRCTrace] at hp
  | succ fuel ih =>
    intro t cC p hp
    cases hs : script t with
    | err =>
      simp only [waitRCTrace, hs] at hp
      exact ih (t + 1) cC p hp
    | ok s =>
      simp only [waitRCTrace, hs, nextReviewsReady_true] at hp
      split at hp
      · simp only [List.mem_singleton] at hp
        rw [hp]
      · split at hp
        · simp only [List.mem_singleton] at hp
          rw [hp]
        · rcases List.mem_cons.mp hp with h | h
          · rw [h]
          · exact ih (t + 1) _ p h

/-- Claim C3 counterexample: a run of waitForReviewsAndChecks whose first
poll has a SUCCESS rollup and whose second poll has a PENDING rollup (no
reviews, so the run is not yet satisfied): checksComplete is true after the
first poll and back to false after the second, within the same invocation,
because the loop reassigns it from scratch on every poll. -/
theorem checksComplete_reverts_counterexample :
    ((waitRCTrace
        (fun t => FetchResult.ok
          { reviews := [], mergeable := "MERGEABLE", mergeStatus := "BLOCKED",
            rollup := some (if t == 0 then "SUCCESS" else "PENDING") })
        none 3 0 false false)[0]? = some (false, true)) ∧
    ((waitRCTrace
        (fun t => FetchResult.ok
          { reviews := [], mergeable := "MERGEABLE", mergeStatus := "BLOCKED",
            rollup := some (if t == 0 then "SUCCESS" else "PENDING") })
        none 3 0 false false)[1]? = some (false, false)) := by
  exact ⟨rfl, rfl⟩

/-- Claim C3 amended: within a single invocation of the wait loop, once
reviewsReady becomes true it never reverts to false (its update is guarded
by the still-false test), for every sequence of polled snapshots; the
checksComplete flag, by contrast, is recomputed from scratch on every poll
and can revert while the run continues. -/
theorem waitRCTrace_reviewsReady_monotone (script : Nat → FetchResult)
    (store : MarkerStore) :
    ∀ fuel t rR cC, (waitRCTrace script store fuel t rR cC).Pairwise
      fun p q => p.1 = true → q.1 = true := by
  intro fuel
  induction fuel with
  | zero =>
    intro t rR cC
    simp [waitRCTrace]
  | succ fuel ih =>
    intro t rR cC
    cases hs : script t with
    | err =>
      simp only [waitRCTrace, hs]
      exact ih (t + 1) rR cC
    | ok s =>
      simp only [waitRCTrace, hs]
      split
      · simp
      · split
        · simp
        · refine List.Pairwise.cons ?_ (ih (t + 1) _ _)
          intro q hq h1
          have h1' : nextReviewsReady store s rR = true := h1
          rw [h1'] at hq
          exact waitRCTrace_fst_of_true script store fuel (t + 1) _ q hq

/-- Witness for the amended C3 at a concrete run (a script of failing
fetches). -/
theorem waitRCTrace_reviewsReady_monotone_witness :
    (waitRCTrace (fun _ => FetchResult.err) none 4 0 false false).Pairwise
      (fun p q => p.1 = true → q.1 = true) :=
  waitRCTrace_reviewsReady_monotone (fun _ => FetchResult.err) none 4 0 false false

/-- Claim C4: whenever a poll's fetched snapshot has mergeable CONFLICTING,
the iteration returns the merge-conflict outcome at once — for every store,
every pair of current flags (even with reviews already ready) and every
rollup (including an absent one) — and a run whose first fetch yields such a
snapshot terminates with the merge-conflict outcome for every timeout. -/
theorem mergeConflict_short_circuit (timeout : Nat)
    (script : Nat → FetchResult) (store : MarkerStore) (s : Snapshot)
    (rR cC : Bool) (hconf : s.mergeable = "CONFLICTING")
    (hscript : script 0 = FetchResult.ok s) :
    waitIter store s rR cC = IterOut.conflict ∧
    waitForReviewsAndChecks timeout script store
      = (RCOutcome.mergeConflict, store) := by
  have hiter : ∀ a b : Bool, waitIter store s a b = IterOut.conflict := by
    intro a b
    simp [waitIter, hconf]
  refine ⟨hiter rR cC, ?_⟩
  unfold waitForReviewsAndChecks
  simp only [waitRCAux, hscript, hiter]

/-- Witness for C4 at a concrete input: a conflicting snapshot with reviews
already ready and no rollup present. -/
theorem mergeConflict_short_circuit_witness :
    ({ reviews := [⟨"R1", "t1"⟩], mergeable := "CONFLICTING",
       mergeStatus := "DIRTY", rollup := none } : Snapshot).mergeable
        = "CONFLICTING" ∧
    ((fun _ => FetchResult.ok
        ({ reviews := [⟨"R1", "t1"⟩], mergeable := "CONFLICTING",
           mergeStatus := "DIRTY", rollup := none } : Snapshot)) 0
      = FetchResult.ok
        { reviews := [⟨"R1", "t1"⟩], mergeable := "CONFLICTING",
          mergeStatus := "DIRTY", rollup := none }) ∧
    (waitIter none
        { reviews := [⟨"R1", "t1"⟩], mergeable := "CONFLICTING",
          mergeStatus := "DIRTY", rollup := none } true false
      = IterOut.conflict ∧
     waitForReviewsAndChecks 2
        (fun _ => FetchResult.ok
          { reviews := [⟨"R1", "t1"⟩], mergeable := "CONFLICTING",
            mergeStatus := "DIRTY", rollup := none }) none
      = (RCOutcome.mergeConflict, none)) :=
  ⟨rfl, rfl,
   mergeConflict_short_circuit 2 _ none _ true false rfl rfl⟩

/-- Claim C5: hasNewReviews with no marker is true exactly on a non-empty
review list; with a marker it is true exactly when some review has a
strictly later createdAt, or the same createdAt with a different id; a list
holding only the marker's own id and createdAt yields false, and one holding
a different id at the marker's createdAt yields true. -/
theorem hasNewReviews_spec (reviews : List ReviewFields) (last : ReviewState)
    (rid : String) (hne : rid ≠ last.ID) :
    (hasNewReviews reviews none = true ↔ reviews ≠ []) ∧
    (hasNewReviews reviews (some last) = true ↔
      ∃ r ∈ reviews, last.CreatedAt < r.CreatedAt
        ∨ (r.CreatedAt = last.CreatedAt ∧ r.ID ≠ last.ID)) ∧
    hasNewReviews [⟨last.ID, last.CreatedAt⟩] (some last) = false ∧
    hasNewReviews [⟨rid, last.CreatedAt⟩] (some last) = true := by
  refine ⟨?_, ?_, ?_, ?_⟩
  · simp [hasNewReviews, List.length_pos]
  · simp [hasNewReviews]
  · simp [hasNewReviews, lt_irrefl]
  · simp [hasNewReviews, hne]

/-- Witness for C5 at a concrete input: marker R1 at t1, candidate id R2. -/
theorem hasNewReviews_spec_witness :
    ("R2" : String) ≠ (⟨"R1", "t1"⟩ : ReviewState).ID ∧
    ((hasNewReviews [] none = true ↔ ([] : List ReviewFields) ≠ []) ∧
     (hasNewReviews [] (some ⟨"R1", "t1"⟩) = true ↔
       ∃ r ∈ ([] : List ReviewFields),
         (⟨"R1", "t1"⟩ : ReviewState).CreatedAt < r.CreatedAt
           ∨ (r.CreatedAt = (⟨"R1", "t1"⟩ : ReviewState).CreatedAt
               ∧ r.ID ≠ (⟨"R1", "t1"⟩ : ReviewState).ID)) ∧
     hasNewReviews [⟨(⟨"R1", "t1"⟩ : ReviewState).ID,
         (⟨"R1", "t1"⟩ : ReviewState).CreatedAt⟩]
       (some ⟨"R1", "t1"⟩) = false ∧
     hasNewReviews [⟨"R2", (⟨"R1", "t1"⟩ : ReviewState).CreatedAt⟩]
       (some ⟨"R1", "t1"⟩) = true) :=
  ⟨by decide, hasNewReviews_spec [] ⟨"R1", "t1"⟩ "R2" (by decide)⟩

/-- Claim C6: checksComplete is true exactly when either a rollup is present
with state SUCCESS, FAILURE or ERROR, or no rollup is present and the merge
state is CONFLICTING or indicates no checks configured (CLEAN or HAS_HOOKS);
for every other merge state with an absent rollup (PENDING, BLOCKED, DIRTY,
UNKNOWN, ...) it is false. -/
theorem computeChecksComplete_spec (s : Snapshot) :
    computeChecksComplete s = true ↔
      ((∃ st, s.rollup = some st
          ∧ (st = "SUCCESS" ∨ st = "FAILURE" ∨ st = "ERROR"))
        ∨ (s.rollup = none
            ∧ (s.mergeable = "CONFLICTING" ∨ s.mergeStatus = "CLEAN"
                ∨ s.mergeStatus = "HAS_HOOKS"))) := by
  rcases hr : s.rollup with _ | st
  · simp only [computeChecksComplete, hr]
    split
    · simp_all
    · split
      · simp_all
      · simp_all
  · simp [computeChecksComplete, hr, or_assoc]

/-- A concrete snapshot with an absent rollup and a BLOCKED merge state. -/
def snapBlocked : Snapshot :=
  { reviews := [], mergeable := "MERGEABLE", mergeStatus := "BLOCKED",
    rollup := none }

/-- Witness for C6 at a concrete input: absent rollup with a BLOCKED merge
state is not complete. -/
theorem computeChecksComplete_spec_witness :
    computeChecksComplete snapBlocked = true ↔
      ((∃ st, snapBlocked.rollup = some st
          ∧ (st = "SUCCESS" ∨ st = "FAILURE" ∨ st = "ERROR"))
        ∨ (snapBlocked.rollup = none
            ∧ (snapBlocked.mergeable = "CONFLICTING"
                ∨ snapBlocked.mergeStatus = "CLEAN"
                ∨ snapBlocked.mergeStatus = "HAS_HOOKS"))) :=
  computeChecksComplete_spec snapBlocked

/-- Claim C8 counterexample: a satisfied run and a timed-out run of
waitForReviewsAndChecks return the same Go value (both a nil error), so
the satisfied and timed-out terminal outcomes are not distinguishable in
the return value. -/
theorem waitRC_return_collapse_counterexample :
    (waitForReviewsAndChecks 2
        (fun _ => FetchResult.ok
          { reviews := [⟨"R1", "t1"⟩], mergeable := "MERGEABLE",
            mergeStatus := "BLOCKED", rollup := some "SUCCESS" }) none).1
      = RCOutcome.satisfied [⟨"R1", "t1"⟩] ∧
    (waitForReviewsAndChecks 2
        (fun _ => FetchResult.ok
          { reviews := [], mergeable := "MERGEABLE",
            mergeStatus := "BLOCKED", rollup := some "PENDING" }) none).1
      = RCOutcome.timedOut false false ∧
    RCOutcome.satisfied [⟨"R1", "t1"⟩] ≠ RCOutcome.timedOut false false ∧
    goReturn (waitForReviewsAndChecks 2
        (fun _ => FetchResult.ok
          { reviews := [⟨"R1", "t1"⟩], mergeable := "MERGEABLE",
            mergeStatus := "BLOCKED", rollup := some "SUCCESS" }) none).1
      = goReturn (waitForReviewsAndChecks 2
        (fun _ => FetchResult.ok
          { reviews := [], mergeable := "MERGEABLE",
            mergeStatus := "BLOCKED", rollup := some "PENDING" }) none).1 := by
  exact ⟨rfl, rfl, by decide, rfl⟩

/-- Claim C8 amended: of the wait loop's terminal outcomes, only the
merge-conflict abort is distinguishable in the Go return value (a non-nil
error); the satisfied and timed-out outcomes both return a nil error and
are distinguished only in printed output, and cancellation never returns
from the loop (the signal handler exits the process with status 130).
Timing out is a non-error terminal outcome: the loop returns nil when the
timeout elapses without satisfaction. -/
theorem waitRC_outcome_error_spec (timeout : Nat)
    (script : Nat → FetchResult) (store : MarkerStore) :
    (goReturn (waitForReviewsAndChecks timeout script store).1 = none ↔
      (waitForReviewsAndChecks timeout script store).1
        ≠ RCOutcome.mergeConflict) ∧
    (∀ rR cC, (waitForReviewsAndChecks timeout script store).1
        = RCOutcome.timedOut rR cC →
      goReturn (waitForReviewsAndChecks timeout script store).1 = none) := by
  have key : ∀ o : RCOutcome,
      (goReturn o = none ↔ o ≠ RCOutcome.mergeConflict) ∧
      (∀ rR cC, o = RCOutcome.timedOut rR cC → goReturn o = none) := by
    intro o
    cases o with
    | timedOut a b => exact ⟨by simp [goReturn], fun _ _ _ => by simp [goReturn]⟩
    | mergeConflict => exact ⟨by simp [goReturn], fun _ _ hab => by cases hab⟩
    | satisfied rs => exact ⟨by simp [goReturn], fun _ _ _ => by simp [goReturn]⟩
  exact key _

/-- Witness for the amended C8 at a concrete run: a conflicting first poll
yields the merge-conflict outcome, whose return value is a non-nil error. -/
theorem waitRC_outcome_error_spec_witness :
    (goReturn (waitForReviewsAndChecks 1
        (fun _ => FetchResult.ok
          { reviews := [], mergeable := "CONFLICTING", mergeStatus := "DIRTY",
            rollup := none }) none).1 = none ↔
      (waitForReviewsAndChecks 1
        (fun _ => FetchResult.ok
          { reviews := [], mergeable := "CONFLICTING", mergeStatus := "DIRTY",
            rollup := none }) none).1 ≠ RCOutcome.mergeConflict) ∧
    (∀ rR cC, (waitForReviewsAndChecks 1
        (fun _ => FetchResult.ok
          { reviews := [], mergeable := "CONFLICTING", mergeStatus := "DIRTY",
            rollup := none }) none).1 = RCOutcome.timedOut rR cC →
      goReturn (waitForReviewsAndChecks 1
        (fun _ => FetchResult.ok
          { reviews := [], mergeable := "CONFLICTING", mergeStatus := "DIRTY",
            rollup := none }) none).1 = none) :=
  waitRC_outcome_error_spec 1
    (fun _ => FetchResult.ok
      { reviews := [], mergeable := "CONFLICTING", mergeStatus := "DIRTY",
        rollup := none }) none

/-- Claim C10 counterexample: a waitForReviewsAndChecks run that terminates
satisfied on a new review leaves the marker store untouched (still absent):
the combined loop contains no saveReviewState call, so the marker file is
not written with the latest observed review on the satisfied exit. -/
theorem waitRC_marker_not_written_counterexample :
    waitForReviewsAndChecks 2
        (fun _ => FetchResult.ok
          { reviews := [⟨"R1", "t1"⟩], mergeable := "MERGEABLE",
            mergeStatus := "BLOCKED", rollup := some "SUCCESS" }) none
      = (RCOutcome.satisfied [⟨"R1", "t1"⟩], none) ∧
    (none : MarkerStore) ≠ some ⟨"R1", "t1"⟩ := by
  exact ⟨rfl, by decide⟩

theorem waitROAux_satisfied (script : Nat → FetchResult)
    (lastState : Option ReviewState) (store : MarkerStore) :
    ∀ fuel t rs st',
      waitROAux script lastState store fuel t = (ROOutcome.satisfied rs, st') →
      ∀ latest, rs.getLast? = some latest →
        st' = some ⟨latest.ID, latest.CreatedAt⟩ := by
  intro fuel
  induction fuel with
  | zero =>
    intro t rs st' h
    simp [waitROAux] at h
  | succ fuel ih =>
    intro t rs st' h latest hlast
    cases hs : script t with
    | err =>
      simp only [waitROAux, hs] at h
      exact ih (t + 1) rs st' h latest hlast
    | ok s =>
      simp only [waitROAux, hs] at h
      split at h
      · split at h
        · rename_i latest' hlast'
          rw [Prod.mk.injEq] at h
          obtain ⟨h1, h2⟩ := h
          injection h1 with h1
          subst h1
          rw [hlast'] at hlast
          injection hlast with hlast
          rw [← h2, ← hlast]
          rfl
        · rename_i hlast'
          rw [Prod.mk.injEq] at h
          obtain ⟨h1, h2⟩ := h
          injection h1 with h1
          subst h1
          rw [hlast'] at hlast
          cases hlast
      · exact ih (t + 1) rs st' h latest hlast

/-- Claim C10 amended: waitForReviewsOnly loads the marker file once at
wait-start and, when it terminates satisfied on new reviews, writes the
marker file with the latest observed review's id and createdAt; a marker
written by saveReviewState and then read by loadReviewState yields the same
two field values.  waitForReviewsAndChecks, by contrast, re-reads the marker
on each poll iteration while reviews are pending and never writes it. -/
theorem waitRO_marker_roundtrip (timeout : Nat) (script : Nat → FetchResult)
    (store : MarkerStore) (rs : List ReviewFields) (st' : MarkerStore)
    (latest : ReviewFields)
    (hrun : waitForReviewsOnly timeout script store
      = (ROOutcome.satisfied rs, st'))
    (hlast : rs.getLast? = some latest) :
    st' = some ⟨latest.ID, latest.CreatedAt⟩ ∧
    (∀ m fs, loadReviewState (saveReviewState m fs) = some m) :=
  ⟨waitROAux_satisfied script (loadReviewState store) store (timeout + 1) 0
    rs st' hrun latest hlast,
   fun _ _ => rfl⟩

/-- Witness for the amended C10 at a concrete run: one poll with one new
review satisfies the wait and writes the marker with that review. -/
theorem waitRO_marker_roundtrip_witness :
    waitForReviewsOnly 2
        (fun _ => FetchResult.ok
          { reviews := [⟨"R1", "t1"⟩], mergeable := "MERGEABLE",
            mergeStatus := "BLOCKED", rollup := none }) none
      = (ROOutcome.satisfied [⟨"R1", "t1"⟩], some ⟨"R1", "t1"⟩) ∧
    ([⟨"R1", "t1"⟩] : List ReviewFields).getLast? = some ⟨"R1", "t1"⟩ ∧
    ((some ⟨"R1", "t1"⟩ : MarkerStore)
        = some ⟨(⟨"R1", "t1"⟩ : ReviewFields).ID,
            (⟨"R1", "t1"⟩ : ReviewFields).CreatedAt⟩ ∧
     ∀ m fs, loadReviewState (saveReviewState m fs) = some m) :=
  ⟨rfl, rfl,
   waitRO_marker_roundtrip 2
     (fun _ => FetchResult.ok
       { reviews := [⟨"R1", "t1"⟩], mergeable := "MERGEABLE",
         mergeStatus := "BLOCKED", rollup := none }) none
     [⟨"R1", "t1"⟩] (some ⟨"R1", "t1"⟩) ⟨"R1", "t1"⟩ rfl rfl⟩
